import Mathlib

/-!
# SafetyCopilot functional-safety checklist agent: verification of the deterministic core

This file gives a shallow embedding, in Lean 4, of the deterministic parts of the
SafetyCopilot pipeline (`src/tools.py`, `src/mini_standard.py`, `src/eval.py`) and
proves the specified properties about them.

Modelling conventions:
* Python `str` is modelled by Lean `String`; `str.lower()` by `pylower`
  (character-wise ASCII lowering, which agrees with Python on the ASCII keywords
  the code matches against); the substring test `needle in hay` by `strContains`;
  `str.strip()` by `pystrip` (drop leading/trailing whitespace characters).
* Python dicts used as records become structures; dicts used as ordered maps
  (insertion-ordered, as in Python 3.7+) become association lists.
* `raise` is modelled by `Except.error`; the external generation service is an
  oracle `String → List Event` supplied as a parameter, and the optional module
  globals `planner_runner` / `checker_runner` become `Option` parameters.

All definitions are executable and total.
-/

namespace SafetyCopilot

/-- Character-wise lowering, modelling Python `str.lower()` on the ASCII
fragment relevant to the keyword sets in the source. -/
def pylower (s : String) : String :=
  String.mk (s.toList.map Char.toLower)

/-- `listContains needle hay = true` iff `needle` occurs as a contiguous
subsequence of `hay` (Python `needle in hay` on strings). The empty needle
occurs in every list, as in Python. -/
def listContains (needle : List Char) : List Char → Bool
  | [] => needle.isEmpty
  | c :: cs => needle.isPrefixOf (c :: cs) || listContains needle cs

/-- Python `needle in hay` for strings. -/
def strContains (hay needle : String) : Bool :=
  listContains needle.toList hay.toList

/-! ## Risk estimator (`src/tools.py`, `risk_estimator_tool`) -/

/-- The high-risk keyword list of `risk_estimator_tool` (weight 2 each). -/
def high_risk_keywords : List String :=
  ["brake", "braking", "steering", "train", "railway", "high-voltage",
   "high voltage", "battery", "bms", "powertrain", "airbag",
   "collision avoidance"]

/-- The medium-risk keyword list of `risk_estimator_tool` (weight 1 each). -/
def medium_risk_keywords : List String :=
  ["monitor", "monitoring", "diagnostic", "diagnostics", "emergency",
   "fail-safe", "failsafe", "stability control", "safety monitoring"]

/-- The score accumulated by the two keyword loops of `risk_estimator_tool`:
start from 0, add 2 for every high-risk keyword contained in the lowered text,
then add 1 for every medium-risk keyword contained in it. -/
def risk_score (system_description : String) : Nat :=
  let text := pylower system_description
  let s1 := high_risk_keywords.foldl
    (fun score kw => if strContains text kw then score + 2 else score) 0
  medium_risk_keywords.foldl
    (fun score kw => if strContains text kw then score + 1 else score) s1

/-- `risk_estimator_tool` from `src/tools.py`: keyword scoring followed by the
threshold decision (`score >= 3` → high, `score >= 1` → medium, else low). -/
def risk_estimator_tool (system_description : String) : String :=
  let score := risk_score system_description
  if 3 ≤ score then "high"
  else if 1 ≤ score then "medium"
  else "low"

/-! ### Helper lemmas about the scoring loops -/

lemma foldl_if_weight (p : String → Bool) (w : Nat) :
    ∀ (kws : List String) (init : Nat),
      kws.foldl (fun s kw => if p kw then s + w else s) init
        = init + w * kws.countP p := by
  intro kws
  induction kws with
  | nil => intro init; simp
  | cons k ks ih =>
      intro init
      by_cases h : p k
      · simp [List.foldl_cons, List.countP_cons, h, ih, Nat.mul_add]
        ring
      · simp [List.foldl_cons, List.countP_cons, h, ih]

lemma risk_score_eq_countP (sd : String) :
    risk_score sd
      = 2 * high_risk_keywords.countP (fun kw => strContains (pylower sd) kw)
        + medium_risk_keywords.countP (fun kw => strContains (pylower sd) kw) := by
  unfold risk_score
  rw [foldl_if_weight, foldl_if_weight]
  simp [Nat.add_comm]

lemma risk_tool_eq_ite (sd : String) :
    risk_estimator_tool sd
      = if 3 ≤ risk_score sd then "high"
        else if 1 ≤ risk_score sd then "medium" else "low" := rfl

lemma risk_tool_high_iff (sd : String) :
    risk_estimator_tool sd = "high" ↔ 3 ≤ risk_score sd := by
  rw [risk_tool_eq_ite]
  split_ifs with h1 h2 <;> simp_all

lemma risk_tool_medium_iff (sd : String) :
    risk_estimator_tool sd = "medium" ↔ 1 ≤ risk_score sd ∧ risk_score sd < 3 := by
  rw [risk_tool_eq_ite]
  split_ifs with h1 h2 <;> simp_all

lemma risk_tool_low_iff (sd : String) :
    risk_estimator_tool sd = "low" ↔ risk_score sd = 0 := by
  rw [risk_tool_eq_ite]
  split_ifs with h1 h2 <;> simp_all <;> omega

/-- C1: `risk_estimator_tool` lower-cases the text, scores 2 per high-risk
keyword and 1 per medium-risk keyword occurring as a substring (each keyword
counted once, via `countP` over the two keyword lists), and classifies
`high` iff the score is ≥ 3, `medium` iff 1 ≤ score < 3, and `low` iff the
score is 0. The function is a total Lean function, hence pure with no error
path. -/
theorem risk_estimator_tool_spec (sd : String) :
    risk_score sd
      = 2 * high_risk_keywords.countP (fun kw => strContains (pylower sd) kw)
        + medium_risk_keywords.countP (fun kw => strContains (pylower sd) kw)
    ∧ (risk_estimator_tool sd = "high" ↔ 3 ≤ risk_score sd)
    ∧ (risk_estimator_tool sd = "medium" ↔ 1 ≤ risk_score sd ∧ risk_score sd < 3)
    ∧ (risk_estimator_tool sd = "low" ↔ risk_score sd = 0) :=
  ⟨risk_score_eq_countP sd, risk_tool_high_iff sd, risk_tool_medium_iff sd,
   risk_tool_low_iff sd⟩

/-! ### Substring matching survives lower-casing -/

lemma isPrefixOf_map (f : Char → Char) :
    ∀ l1 l2 : List Char, l1.isPrefixOf l2 = true →
      (l1.map f).isPrefixOf (l2.map f) = true := by
  intro l1
  induction l1 with
  | nil => intro l2 _; simp [List.isPrefixOf]
  | cons a as ih =>
      intro l2 h
      cases l2 with
      | nil => simp [List.isPrefixOf] at h
      | cons b bs =>
          simp only [List.isPrefixOf, Bool.and_eq_true, beq_iff_eq] at h
          simp only [List.map_cons, List.isPrefixOf, Bool.and_eq_true, beq_iff_eq]
          exact ⟨congrArg f h.1, ih bs h.2⟩

lemma listContains_map (f : Char → Char) :
    ∀ (hay needle : List Char), listContains needle hay = true →
      listContains (needle.map f) (hay.map f) = true := by
  intro hay
  induction hay with
  | nil =>
      intro needle h
      simp only [listContains, List.isEmpty_iff] at h
      simp [listContains, h]
  | cons c cs ih =>
      intro needle h
      simp only [listContains, Bool.or_eq_true] at h
      simp only [List.map_cons, listContains, Bool.or_eq_true]
      rcases h with h | h
      · exact Or.inl (by simpa using isPrefixOf_map f needle (c :: cs) h)
      · exact Or.inr (ih needle h)

/-- A keyword that is already lower-case still occurs after the text is
lower-cased. -/
lemma strContains_pylower (sd kw : String) (hkw : pylower kw = kw)
    (h : strContains sd kw = true) : strContains (pylower sd) kw = true := by
  have hl : kw.toList.map Char.toLower = kw.toList := by
    have := congrArg String.toList hkw
    simpa [pylower] using this
  have hmap := listContains_map Char.toLower sd.toList kw.toList h
  rw [hl] at hmap
  simpa [strContains, pylower] using hmap

/-- C8: a description containing both "brake" and "high-voltage" as substrings
scores at least 4 (two high-risk keywords at weight 2 each) and is classified
as "high". -/
theorem risk_brake_high_voltage (sd : String)
    (hb : strContains sd "brake" = true)
    (hv : strContains sd "high-voltage" = true) :
    4 ≤ risk_score sd ∧ risk_estimator_tool sd = "high" := by
  have hb' : strContains (pylower sd) "brake" = true :=
    strContains_pylower sd "brake" (by decide) hb
  have hv' : strContains (pylower sd) "high-voltage" = true :=
    strContains_pylower sd "high-voltage" (by decide) hv
  have h2 : 2 ≤ high_risk_keywords.countP (fun kw => strContains (pylower sd) kw) := by
    have hsub : List.Sublist ["brake", "high-voltage"] high_risk_keywords := by
      decide
    have hc := hsub.countP_le (fun kw => strContains (pylower sd) kw)
    have : List.countP (fun kw => strContains (pylower sd) kw)
        ["brake", "high-voltage"] = 2 := by
      simp [List.countP_cons, hb', hv']
    omega
  have hs : 4 ≤ risk_score sd := by
    rw [risk_score_eq_countP]; omega
  exact ⟨hs, (risk_tool_high_iff sd).mpr (by omega)⟩

/-- C8 witness: a concrete description containing both keywords. -/
theorem risk_brake_high_voltage_witness :
    4 ≤ risk_score "brake for a high-voltage platform"
    ∧ risk_estimator_tool "brake for a high-voltage platform" = "high" :=
  risk_brake_high_voltage "brake for a high-voltage platform" (by decide) (by decide)

/-- C9: the score depends only on which keywords occur in the lowered text
(each keyword contributes its weight at most once, however many times it
occurs); and the concrete text "brake brake brake" scores 2 and
classifies as "medium", not "high". -/
theorem risk_score_keyword_once :
    (∀ t1 t2 : String,
      (∀ kw ∈ high_risk_keywords ++ medium_risk_keywords,
        strContains (pylower t1) kw = strContains (pylower t2) kw) →
      risk_score t1 = risk_score t2
        ∧ risk_estimator_tool t1 = risk_estimator_tool t2)
    ∧ risk_score "brake brake brake" = 2
    ∧ risk_estimator_tool "brake brake brake" = "medium" := by
  refine ⟨?_, by decide, by decide⟩
  intro t1 t2 h
  have hs : risk_score t1 = risk_score t2 := by
    rw [risk_score_eq_countP, risk_score_eq_countP]
    have h1 : high_risk_keywords.countP (fun kw => strContains (pylower t1) kw)
        = high_risk_keywords.countP (fun kw => strContains (pylower t2) kw) :=
      List.countP_congr (fun kw hkw => by
        rw [h kw (List.mem_append_left _ hkw)])
    have h2 : medium_risk_keywords.countP (fun kw => strContains (pylower t1) kw)
        = medium_risk_keywords.countP (fun kw => strContains (pylower t2) kw) :=
      List.countP_congr (fun kw hkw => by
        rw [h kw (List.mem_append_right _ hkw)])
    rw [h1, h2]
  exact ⟨hs, by rw [risk_tool_eq_ite, risk_tool_eq_ite, hs]⟩

/-- C9 witness: lower-casing makes "BRAKE" and "brake" agree on every
keyword, so they get the same score and classification. -/
theorem risk_score_keyword_once_witness :
    risk_score "BRAKE" = risk_score "brake"
    ∧ risk_estimator_tool "BRAKE" = risk_estimator_tool "brake" :=
  risk_score_keyword_once.1 "BRAKE" "brake" (by decide)

/-! ## Mini-standard knowledge base (`src/mini_standard.py`) and lookup -/

/-- One activity entry of the mini-standard knowledge base. In the source each
entry is a dict with keys id, phase, topic, priority, summary. -/
structure ActivityEntry where
  id : String
  phase : String
  topic : String
  priority : String
  summary : String
deriving DecidableEq

/-- `mini_standard` from `src/mini_standard.py`: standard name to ordered list
of entries; the Python dict is insertion-ordered, modelled by an association
list. The id "iso262262-verif-test-plan" reproduces the source verbatim. -/
def mini_standard : List (String × List ActivityEntry) :=
  [("iso26262",
    [{ id := "iso26262-concept-hara", phase := "concept", topic := "HARA",
       priority := "high",
       summary := "Perform a hazard analysis and risk assessment for the system, identifying potential hazards and their risk levels." },
     { id := "iso26262-concept-safety-goals", phase := "concept",
       topic := "safety_goals", priority := "high",
       summary := "Define safety goals that mitigate the most critical hazards and document their rationale." },
     { id := "iso26262-design-reqs", phase := "design",
       topic := "safety_requirements", priority := "high",
       summary := "Derive and allocate safety requirements to system, hardware, and software elements." },
     { id := "iso26262-design-traceability", phase := "design",
       topic := "traceability", priority := "medium",
       summary := "Ensure traceability from safety goals to technical safety requirements and design elements." },
     { id := "iso26262-impl-sw-implementation", phase := "implementation",
       topic := "sw_implementation", priority := "medium",
       summary := "Implement software in accordance with coding guidelines, defensive programming, and safety mechanisms." },
     { id := "iso262262-verif-test-plan", phase := "verification",
       topic := "verification_plan", priority := "high",
       summary := "Plan verification and validation activities, including unit, integration, and system-level tests to show that safety requirements are met." },
     { id := "iso26262-verif-independent-review", phase := "verification",
       topic := "independent_review", priority := "medium",
       summary := "Schedule independent reviews or assessments for key safety work products." },
     { id := "iso26262-safety-case", phase := "safety_case",
       topic := "safety_case", priority := "high",
       summary := "Plan and maintain a safety case that collects evidence and arguments for releasing the system." },
     { id := "iso26262-safety-manual", phase := "safety_case",
       topic := "safety_manual", priority := "medium",
       summary := "Prepare safety manuals or usage guidelines for integrators and downstream users." }]),
   ("generic_safety",
    [{ id := "generic-risk-assessment", phase := "concept",
       topic := "risk_assessment", priority := "high",
       summary := "Identify hazards, estimate risks, and decide which risks require mitigation." },
     { id := "generic-controls", phase := "design", topic := "controls",
       priority := "medium",
       summary := "Design technical and organizational controls to reduce or monitor risks." },
     { id := "generic-test", phase := "verification", topic := "testing",
       priority := "medium",
       summary := "Plan and execute tests or other verification activities to check that controls work as intended." },
     { id := "generic-documentation", phase := "safety_case",
       topic := "documentation", priority := "medium",
       summary := "Document assumptions, limitations, and residual risks for stakeholders." }])]

/-- Python `dict.get(key, [])` on the association-list model: the value at the
first matching key, or `[]` when absent. -/
def dict_get (key : String) : List (String × List ActivityEntry) → List ActivityEntry
  | [] => []
  | (k, v) :: rest => if key = k then v else dict_get key rest

/-- `standard_lookup_tool` from `src/tools.py`: fetch the profile (empty for an
unknown standard) and keep the entries whose phase matches exactly. -/
def standard_lookup_tool (standard phase : String) : List ActivityEntry :=
  (dict_get standard mini_standard).filter (fun item => item.phase == phase)

lemma dict_get_of_not_mem (key : String) :
    ∀ (d : List (String × List ActivityEntry)),
      key ∉ d.map Prod.fst → dict_get key d = [] := by
  intro d
  induction d with
  | nil => intro _; rfl
  | cons kv rest ih =>
      intro h
      simp only [List.map_cons, List.mem_cons] at h
      push_neg at h
      simp only [dict_get, if_neg h.1]
      exact ih h.2

/-- C2: `standard_lookup_tool` returns exactly the entries of the standard's
profile whose phase equals the requested phase, in the profile's original
order (its result is a sublist of the profile, every returned entry has the
requested phase, and every profile entry with that phase is returned); an
unknown standard yields the empty list. Being a total Lean function, it
raises no error and has no side effect. -/
theorem standard_lookup_tool_spec (standard phase : String) :
    standard_lookup_tool standard phase
      = (dict_get standard mini_standard).filter (fun item => item.phase == phase)
    ∧ List.Sublist (standard_lookup_tool standard phase)
        (dict_get standard mini_standard)
    ∧ (∀ e ∈ standard_lookup_tool standard phase, e.phase = phase)
    ∧ (∀ e ∈ dict_get standard mini_standard,
        e.phase = phase → e ∈ standard_lookup_tool standard phase)
    ∧ (standard ∉ mini_standard.map Prod.fst →
        standard_lookup_tool standard phase = []) := by
  refine ⟨rfl, List.filter_sublist _, ?_, ?_, ?_⟩
  · intro e he
    have := List.of_mem_filter he
    simpa using this
  · intro e he hp
    exact List.mem_filter_of_mem he (by simpa using hp)
  · intro h
    unfold standard_lookup_tool
    rw [dict_get_of_not_mem standard mini_standard h]
    rfl

/-- C2 witness: an unknown standard name gives the empty list, and the
iso26262 concept lookup returns the two concept entries in order. -/
theorem standard_lookup_tool_spec_witness :
    standard_lookup_tool "unknown_standard" "concept" = []
    ∧ (standard_lookup_tool "iso26262" "concept").map ActivityEntry.topic
        = ["HARA", "safety_goals"] :=
  ⟨(standard_lookup_tool_spec "unknown_standard" "concept").2.2.2.2 (by decide),
   by decide⟩

/-! ## Checklist formatter (`src/tools.py`, `checklist_formatter_tool`) -/

/-- A task dict as consumed by the formatter: both fields may be absent
(`t.get("phase", "general")`, `t.get("description", "")`). -/
structure Task where
  phase : Option String
  description : Option String
deriving DecidableEq

/-- Python `str.strip()`: remove leading and trailing whitespace. -/
def pystrip (s : String) : String :=
  String.mk
    (((s.toList.dropWhile Char.isWhitespace).reverse.dropWhile
        Char.isWhitespace).reverse)

/-- `grouped.setdefault(phase, []).append(line)` on the insertion-ordered dict
model: append `line` to the list at the first occurrence of `phase`, or add a
new `(phase, [line])` binding at the end. -/
def appendGrouped : List (String × List String) → String → String → List (String × List String)
  | [], phase, line => [(phase, [line])]
  | (p, ls) :: rest, phase, line =>
      if p = phase then (p, ls ++ [line]) :: rest
      else (p, ls) :: appendGrouped rest phase line

/-- `checklist_formatter_tool` from `src/tools.py`: fold over the tasks,
skipping tasks whose stripped description is empty and otherwise appending
"- [ ] " + description to the task's phase group. -/
def checklist_formatter_tool (tasks : List Task) : List (String × List String) :=
  tasks.foldl
    (fun grouped t =>
      let phase := t.phase.getD "general"
      let desc := pystrip (t.description.getD "")
      if desc = "" then grouped
      else appendGrouped grouped phase ("- [ ] " ++ desc))
    []

/-- Spec-side view of the formatter input: the (phase, rendered line) pairs of
the tasks that are kept, in input order. -/
def keptPairs (tasks : List Task) : List (String × String) :=
  tasks.filterMap
    (fun t =>
      let phase := t.phase.getD "general"
      let desc := pystrip (t.description.getD "")
      if desc = "" then none else some (phase, "- [ ] " ++ desc))

/-- Spec-side first-seen-order key sequence of a list. -/
def firstSeen : List String → List String
  | [] => []
  | k :: rest => k :: firstSeen (rest.filter (fun x => x != k))
termination_by ks => ks.length
decreasing_by
  simp only [List.length_cons]
  exact Nat.lt_succ_of_le (List.length_filter_le _ _)

/-- Value of an insertion-ordered dict of string lists at a key (first match),
empty when absent. -/
def dict_get_lines (phase : String) : List (String × List String) → List String
  | [] => []
  | (p, ls) :: rest => if p = phase then ls else dict_get_lines phase rest

/-! ### Helper lemmas for the formatter -/

lemma appendGrouped_keys (g : List (String × List String)) (phase line : String) :
    (appendGrouped g phase line).map Prod.fst
      = if phase ∈ g.map Prod.fst then g.map Prod.fst
        else g.map Prod.fst ++ [phase] := by
  induction g with
  | nil => simp [appendGrouped]
  | cons kv rest ih =>
      obtain ⟨p, ls⟩ := kv
      by_cases h : p = phase
      · subst h
        simp [appendGrouped]
      · have hne : ¬phase = p := fun e => h e.symm
        simp only [appendGrouped, if_neg h, List.map_cons, ih, List.mem_cons,
          hne, false_or]
        by_cases hm : phase ∈ rest.map Prod.fst
        · simp [hm]
        · simp [hm]

lemma appendGrouped_get (g : List (String × List String)) (phase line q : String) :
    dict_get_lines q (appendGrouped g phase line)
      = if q = phase then dict_get_lines q g ++ [line]
        else dict_get_lines q g := by
  induction g with
  | nil =>
      by_cases hq : q = phase
      · subst hq; simp [appendGrouped, dict_get_lines]
      · have hq2 : ¬phase = q := fun e => hq e.symm
        simp [appendGrouped, dict_get_lines, hq, hq2]
  | cons kv rest ih =>
      obtain ⟨p, ls⟩ := kv
      by_cases h : p = phase
      · subst h
        by_cases hq : q = p
        · subst hq; simp [appendGrouped, dict_get_lines]
        · have hq2 : ¬p = q := fun e => hq e.symm
          simp [appendGrouped, dict_get_lines, hq, hq2]
      · simp only [appendGrouped, if_neg h]
        by_cases hq : p = q
        · subst hq
          have hqp : ¬p = phase := h
          simp [dict_get_lines, hqp]
        · simp [dict_get_lines, hq, ih]

lemma firstSeen_append_singleton (p : String) :
    ∀ ks, firstSeen (ks ++ [p])
      = if p ∈ ks then firstSeen ks else firstSeen ks ++ [p] := by
  intro ks
  induction ks using firstSeen.induct with
  | case1 => simp [firstSeen]
  | case2 k rest ih =>
      simp only [List.cons_append, firstSeen, List.filter_append]
      by_cases hp : p = k
      · subst hp
        simp [List.filter_cons, List.mem_cons]
      · have hf : List.filter (fun x => x != k) [p] = [p] := by
          simp [List.filter_cons, hp]
        have hmem : p ∈ List.filter (fun x => x != k) rest ↔ p ∈ rest := by
          simp [List.mem_filter, hp]
        rw [hf, ih]
        simp only [hmem, List.mem_cons, hp, false_or]
        by_cases hm : p ∈ rest
        · simp [hm]
        · simp [hm]

lemma mem_firstSeen (x : String) :
    ∀ ks : List String, x ∈ firstSeen ks ↔ x ∈ ks := by
  intro ks
  induction ks using firstSeen.induct with
  | case1 => simp [firstSeen]
  | case2 k rest ih =>
      simp only [firstSeen, List.mem_cons, ih, List.mem_filter, bne_iff_ne]
      by_cases hx : x = k
      · simp [hx]
      · simp [hx]


lemma formatter_append_dropped (l : List Task) (t : Task)
    (hd : pystrip (t.description.getD "") = "") :
    checklist_formatter_tool (l ++ [t]) = checklist_formatter_tool l := by
  simp [checklist_formatter_tool, List.foldl_append, hd]

lemma formatter_append_kept (l : List Task) (t : Task)
    (hd : pystrip (t.description.getD "") ≠ "") :
    checklist_formatter_tool (l ++ [t])
      = appendGrouped (checklist_formatter_tool l) (t.phase.getD "general")
          ("- [ ] " ++ pystrip (t.description.getD "")) := by
  simp [checklist_formatter_tool, List.foldl_append, hd]

lemma keptPairs_append_dropped (l : List Task) (t : Task)
    (hd : pystrip (t.description.getD "") = "") :
    keptPairs (l ++ [t]) = keptPairs l := by
  simp [keptPairs, List.filterMap_append, hd]

lemma keptPairs_append_kept (l : List Task) (t : Task)
    (hd : pystrip (t.description.getD "") ≠ "") :
    keptPairs (l ++ [t])
      = keptPairs l
        ++ [(t.phase.getD "general", "- [ ] " ++ pystrip (t.description.getD ""))] := by
  simp [keptPairs, List.filterMap_append, hd]

lemma formatter_keys (tasks : List Task) :
    (checklist_formatter_tool tasks).map Prod.fst
      = firstSeen ((keptPairs tasks).map Prod.fst) := by
  induction tasks using List.reverseRecOn with
  | nil => simp [checklist_formatter_tool, keptPairs, firstSeen]
  | append_singleton l t ih =>
      by_cases hd : pystrip (t.description.getD "") = ""
      · rw [formatter_append_dropped l t hd, keptPairs_append_dropped l t hd, ih]
      · rw [formatter_append_kept l t hd, keptPairs_append_kept l t hd,
          appendGrouped_keys, ih, List.map_append]
        simp only [List.map_cons, List.map_nil]
        rw [firstSeen_append_singleton]
        simp only [mem_firstSeen]

lemma formatter_get (tasks : List Task) (q : String) :
    dict_get_lines q (checklist_formatter_tool tasks)
      = ((keptPairs tasks).filter (fun pr => pr.1 == q)).map Prod.snd := by
  induction tasks using List.reverseRecOn with
  | nil => simp [checklist_formatter_tool, keptPairs, dict_get_lines]
  | append_singleton l t ih =>
      by_cases hd : pystrip (t.description.getD "") = ""
      · rw [formatter_append_dropped l t hd, keptPairs_append_dropped l t hd, ih]
      · rw [formatter_append_kept l t hd, appendGrouped_get,
          keptPairs_append_kept l t hd, List.filter_append, List.map_append, ih]
        by_cases hq : q = t.phase.getD "general"
        · rw [if_pos hq]
          have : (t.phase.getD "general" == q) = true := by
            simp [hq]
          simp [List.filter_cons, this]
        · rw [if_neg hq]
          have : (t.phase.getD "general" == q) = false := by
            simp
            exact fun e => hq e.symm
          simp [List.filter_cons, this]

/-- C3: the formatter's output lists phases in first-seen order over the kept
tasks (those whose stripped description is non-empty), each phase mapping to
the rendered "- [ ] " lines of its kept tasks in input order; and the
three-task example from the specification formats as stated. -/
theorem checklist_formatter_tool_spec (tasks : List Task) :
    (checklist_formatter_tool tasks).map Prod.fst
        = firstSeen ((keptPairs tasks).map Prod.fst)
    ∧ (∀ phase, dict_get_lines phase (checklist_formatter_tool tasks)
        = ((keptPairs tasks).filter (fun pr => pr.1 == phase)).map Prod.snd)
    ∧ checklist_formatter_tool
        [{ phase := some "concept", description := some "A" },
         { phase := some "concept", description := some "B" },
         { phase := some "verification", description := some "C" }]
      = [("concept", ["- [ ] A", "- [ ] B"]), ("verification", ["- [ ] C"])] :=
  ⟨formatter_keys tasks, fun q => formatter_get tasks q, by decide⟩

lemma appendGrouped_mem (phase line p : String) (ls : List String) :
    ∀ g : List (String × List String), (p, ls) ∈ appendGrouped g phase line →
      (p, ls) ∈ g
      ∨ (p = phase
          ∧ (ls = [line] ∨ ∃ ls0, (p, ls0) ∈ g ∧ ls = ls0 ++ [line])) := by
  intro g
  induction g with
  | nil =>
      intro h
      have h1 := List.mem_singleton.mp h
      have hp : p = phase := congrArg Prod.fst h1
      have hls : ls = [line] := congrArg Prod.snd h1
      exact Or.inr ⟨hp, Or.inl hls⟩
  | cons kv rest ih =>
      obtain ⟨k, vs⟩ := kv
      by_cases hk : k = phase
      · subst hk
        intro h
        rw [show appendGrouped ((k, vs) :: rest) k line = (k, vs ++ [line]) :: rest
            from by simp [appendGrouped]] at h
        rcases List.mem_cons.mp h with h1 | h2
        · have hp : p = k := congrArg Prod.fst h1
          have hls : ls = vs ++ [line] := congrArg Prod.snd h1
          exact Or.inr ⟨hp, Or.inr
            ⟨vs, List.mem_cons.mpr (Or.inl (by rw [hp])), hls⟩⟩
        · exact Or.inl (List.mem_cons.mpr (Or.inr h2))
      · intro h
        rw [show appendGrouped ((k, vs) :: rest) phase line
              = (k, vs) :: appendGrouped rest phase line
            from by simp [appendGrouped, hk]] at h
        rcases List.mem_cons.mp h with h1 | h2
        · exact Or.inl (List.mem_cons.mpr (Or.inl h1))
        · rcases ih h2 with h3 | ⟨hp, h4⟩
          · exact Or.inl (List.mem_cons.mpr (Or.inr h3))
          · refine Or.inr ⟨hp, ?_⟩
            rcases h4 with h4 | ⟨ls0, hmem, hls⟩
            · exact Or.inl h4
            · exact Or.inr ⟨ls0, List.mem_cons.mpr (Or.inr hmem), hls⟩

/-- C10: every phase group produced by the formatter is non-empty, and every
line in it is "- [ ] " followed by the non-empty stripped description of some
input task whose (defaulted) phase is that group's key. -/
theorem checklist_formatter_tool_inv (tasks : List Task) (p : String)
    (ls : List String) (hmem : (p, ls) ∈ checklist_formatter_tool tasks) :
    ls ≠ [] ∧ ∀ line ∈ ls, ∃ t ∈ tasks,
      t.phase.getD "general" = p
      ∧ pystrip (t.description.getD "") ≠ ""
      ∧ line = "- [ ] " ++ pystrip (t.description.getD "") := by
  induction tasks using List.reverseRecOn generalizing p ls with
  | nil => simp [checklist_formatter_tool] at hmem
  | append_singleton l t ih =>
      by_cases hd : pystrip (t.description.getD "") = ""
      · rw [formatter_append_dropped l t hd] at hmem
        obtain ⟨hne, hall⟩ := ih p ls hmem
        refine ⟨hne, fun line hline => ?_⟩
        obtain ⟨t0, ht0, hprops⟩ := hall line hline
        exact ⟨t0, List.mem_append_left _ ht0, hprops⟩
      · rw [formatter_append_kept l t hd] at hmem
        have htm : t ∈ l ++ [t] := List.mem_append_right _ (List.mem_singleton.mpr rfl)
        rcases appendGrouped_mem _ _ p ls _ hmem with hold | ⟨hp, hnew⟩
        · obtain ⟨hne, hall⟩ := ih p ls hold
          refine ⟨hne, fun line hline => ?_⟩
          obtain ⟨t0, ht0, hprops⟩ := hall line hline
          exact ⟨t0, List.mem_append_left _ ht0, hprops⟩
        · rcases hnew with hls | ⟨ls0, hmem0, hls⟩
          · subst hls
            refine ⟨by simp, fun line hline => ?_⟩
            rw [List.mem_singleton] at hline
            exact ⟨t, htm, hp.symm, hd, hline⟩
          · subst hls
            obtain ⟨_, hall⟩ := ih p ls0 hmem0
            refine ⟨by simp, fun line hline => ?_⟩
            rw [List.mem_append] at hline
            rcases hline with hline | hline
            · obtain ⟨t0, ht0, hprops⟩ := hall line hline
              exact ⟨t0, List.mem_append_left _ ht0, hprops⟩
            · rw [List.mem_singleton] at hline
              exact ⟨t, htm, hp.symm, hd, hline⟩

/-- C10 witness: a single task with phase "concept" and description " A "
produces the group ("concept", ["- [ ] A"]), which satisfies the invariant. -/
theorem checklist_formatter_tool_inv_witness :
    ["- [ ] A"] ≠ ([] : List String)
    ∧ ∀ line ∈ ["- [ ] A"],
        ∃ t ∈ [Task.mk (some "concept") (some " A ")],
          t.phase.getD "general" = "concept"
          ∧ pystrip (t.description.getD "") ≠ ""
          ∧ line = "- [ ] " ++ pystrip (t.description.getD "") :=
  checklist_formatter_tool_inv [Task.mk (some "concept") (some " A ")]
    "concept" ["- [ ] A"] (by decide)

/-! ## Evaluator coverage matching (`src/eval.py`, `evaluate_systems`) -/

/-- Python `key.replace("_", " ")` for the single character "_": replace every
underscore by a space. -/
def underscores_to_spaces (s : String) : String :=
  String.mk (s.toList.map (fun c => if c = '_' then ' ' else c))

/-- The per-keyword coverage test of `evaluate_systems`: lower-case the
keyword, special-case "hara" and "verification_plan", otherwise look for the
keyword with underscores replaced by spaces. `text_lower` is the already
lower-cased final text. -/
def keyword_covered (text_lower : String) (kw : String) : Bool :=
  let key := pylower kw
  if key = "hara" then
    strContains text_lower "hara" || strContains text_lower "hazard analysis"
  else if key = "verification_plan" then
    (strContains text_lower "verification" && strContains text_lower "plan")
      || strContains text_lower "test plan"
  else
    strContains text_lower (underscores_to_spaces key)

/-- The `covered` counter loop of `evaluate_systems`. -/
def covered_count (text_lower : String) (expected : List String) : Nat :=
  expected.foldl
    (fun covered kw => if keyword_covered text_lower kw then covered + 1 else covered) 0

/-- A system description as consumed by the evaluator
(`id`, `name`, `domain`, `description`, `expected_must_have`). -/
structure SystemDesc where
  id : String
  name : String
  domain : String
  description : String
  expected_must_have : List String
deriving DecidableEq

/-- One row of the evaluation report, before the percentage formatting. The
Python float division `covered / max(1, len(expected))` is modelled exactly
by rational division with the same guarded denominator. -/
structure ReportRow where
  id : String
  name : String
  domain : String
  risk : String
  expected_topics : Nat
  covered_topics : Nat
  coverage_ratio : ℚ

/-- The per-system row computation of `evaluate_systems`, given the final
text produced for the system by the pipeline. -/
def evaluate_row (final_text : String) (s : SystemDesc) : ReportRow :=
  let text_lower := pylower final_text
  let expected := s.expected_must_have
  let covered := covered_count text_lower expected
  { id := s.id
    name := s.name
    domain := s.domain
    risk := risk_estimator_tool s.description
    expected_topics := expected.length
    covered_topics := covered
    coverage_ratio := (covered : ℚ) / ((max 1 expected.length : Nat) : ℚ) }

/-- C4: the evaluator covers "hara" iff the text contains "hara" or
"hazard analysis"; covers "verification_plan" iff the text contains both
"verification" and "plan" or contains "test plan"; covers any other keyword
iff the text contains it with underscores replaced by spaces (keywords are
compared after lower-casing, as in the source); in particular a text
containing "hazard analysis" but not "hara" still covers "hara". -/
theorem keyword_covered_spec (text_lower kw : String) :
    (pylower kw = "hara" →
      keyword_covered text_lower kw
        = (strContains text_lower "hara" || strContains text_lower "hazard analysis"))
    ∧ (pylower kw = "verification_plan" →
      keyword_covered text_lower kw
        = ((strContains text_lower "verification" && strContains text_lower "plan")
            || strContains text_lower "test plan"))
    ∧ (pylower kw ≠ "hara" → pylower kw ≠ "verification_plan" →
      keyword_covered text_lower kw
        = strContains text_lower (underscores_to_spaces (pylower kw)))
    ∧ (strContains "we perform a hazard analysis early" "hara" = false
        ∧ keyword_covered "we perform a hazard analysis early" "hara" = true) := by
  refine ⟨?_, ?_, ?_, by decide, by decide⟩
  · intro h
    unfold keyword_covered
    rw [h]
    rfl
  · intro h
    unfold keyword_covered
    rw [h]
    rfl
  · intro h1 h2
    unfold keyword_covered
    rw [if_neg h1, if_neg h2]

/-- C4 witness: the keyword "HARA" (upper-case, lowered by the evaluator)
follows the "hara" rule on a concrete text. -/
theorem keyword_covered_spec_witness :
    keyword_covered "risk work" "HARA"
      = (strContains "risk work" "hara" || strContains "risk work" "hazard analysis") :=
  (keyword_covered_spec "risk work" "HARA").1 (by decide)

/-- C6: the coverage ratio of a report row is the covered count divided by
the guarded denominator max(1, number of expected keywords); the denominator
is positive (no division by zero), and an empty expected list yields ratio
0. -/
theorem coverage_ratio_guarded (final_text : String) (s : SystemDesc) :
    (evaluate_row final_text s).coverage_ratio
      = ((evaluate_row final_text s).covered_topics : ℚ)
          / ((max 1 s.expected_must_have.length : Nat) : ℚ)
    ∧ (0 : ℚ) < ((max 1 s.expected_must_have.length : Nat) : ℚ)
    ∧ (s.expected_must_have = [] →
        (evaluate_row final_text s).coverage_ratio = 0) := by
  refine ⟨rfl, ?_, ?_⟩
  · have h1 : 0 < max 1 s.expected_must_have.length := by omega
    exact_mod_cast h1
  · intro h
    unfold evaluate_row
    simp [h, covered_count]

/-- C6 witness: a system with an empty expected-keyword list gets ratio 0
without any division error. -/
theorem coverage_ratio_guarded_witness :
    (evaluate_row "whatever text" (SystemDesc.mk "s0" "demo" "automotive"
        "a simple lamp" [])).coverage_ratio = 0 :=
  (coverage_ratio_guarded "whatever text"
    (SystemDesc.mk "s0" "demo" "automotive" "a simple lamp" [])).2.2 rfl

/-! ## Orchestrator (`src/eval.py`, `run_pipeline_get_text`)

The external generation service is modelled as an oracle mapping the message
text to the stream of events it returns. An event carries `final : Bool`
(`event.is_final_response()`) and `text : Option String` (the text of the
first content part when `event.content and event.content.parts` is truthy,
`none` otherwise). The optional module globals `planner_runner` and
`checker_runner` become `Option`-valued oracles, and the `raise RuntimeError`
becomes `Except.error`. -/

/-- One event of a generation-service response stream. -/
structure Event where
  final : Bool
  text : Option String
deriving DecidableEq

/-- The capture loop of `run_pipeline_get_text`: starting from the empty
string, each final event that carries content overwrites the captured text. -/
def capture_final (events : List Event) : String :=
  events.foldl
    (fun acc e => if e.final && e.text.isSome then e.text.getD acc else acc) ""

/-- The final-response events of a stream: final events that carry text. -/
def finalResponses (events : List Event) : List Event :=
  events.filter (fun e => e.final && e.text.isSome)

/-- The text of the last final-response event of a stream, if any. -/
def last_final_text (events : List Event) : Option String :=
  (finalResponses events).getLast?.bind Event.text

/-- The planner prompt assembled by `run_pipeline_get_text`. -/
def planner_input (description domain standard risk_level : String) : String :=
  "System description:\n" ++ description ++ "\n\n"
    ++ "Domain: " ++ domain ++ "\n"
    ++ "Target standard: " ++ standard ++ "\n"
    ++ "Risk level (pre-estimated): " ++ risk_level ++ "\n\n"
    ++ "Your task:\n"
    ++ "1. Propose a safety and compliance work plan for this system, grouped by phase.\n"
    ++ "2. Mention key concepts such as HARA / risk assessment, safety goals,\n"
    ++ "   safety requirements, verification / test plan, and safety case where appropriate.\n"
    ++ "3. Keep the answer concise (ideally under 200 words).\n"

/-- The checker prompt assembled by `run_pipeline_get_text`, embedding the
planner's captured text between triple quotes. -/
def checker_input (description domain standard risk_level planner_text : String) : String :=
  "System description:\n" ++ description ++ "\n\n"
    ++ "Domain: " ++ domain ++ "\n"
    ++ "Target standard: " ++ standard ++ "\n"
    ++ "Risk level: " ++ risk_level ++ "\n\n"
    ++ "Current checklist or plan from the PlannerAgent:\n"
    ++ "\"\"\"" ++ planner_text ++ "\"\"\"\n\n"
    ++ "Your task:\n"
    ++ "1. Check whether the checklist includes at least the following critical concepts for medium and high risk systems: HARA / risk assessment, safety goals, verification or test plan, and safety case or safety documentation.\n"
    ++ "2. If something is missing, add additional checklist items to fill the gaps.\n"
    ++ "3. Return an updated grouped checklist plus a short textual review (2-4 bullet points).\n"
    ++ "4. Keep the whole answer concise (ideally under 200 words).\n"

/-- `run_pipeline_get_text` from `src/eval.py`: raise if either runner is
uninitialized; otherwise estimate the risk, run the planner and capture its
final text, run the checker on a prompt embedding that text, and return the
checker's captured text. -/
def run_pipeline_get_text (planner_runner checker_runner : Option (String → List Event))
    (system : SystemDesc) (standard : String) : Except String String :=
  match planner_runner, checker_runner with
  | some prun, some crun =>
      let description := system.description
      let domain := system.domain
      let risk_level := risk_estimator_tool description
      let planner_text :=
        capture_final (prun (planner_input description domain standard risk_level))
      let checker_text :=
        capture_final (crun (checker_input description domain standard risk_level planner_text))
      Except.ok checker_text
  | _, _ => Except.error "Agents (Planner/Checker) are not initialized."

/-- C5: `run_pipeline_get_text` fails iff one of the two runners is
uninitialized; on that path the result is the fixed configuration error,
for every system and standard and independently of any oracle, so no risk
computation, external call or partial output can influence or be influenced
by the error path; with both runners present it always returns `ok`. -/
theorem run_pipeline_init_check
    (planner_runner checker_runner : Option (String → List Event))
    (system : SystemDesc) (standard : String) :
    ((∃ msg, run_pipeline_get_text planner_runner checker_runner system standard
        = Except.error msg)
      ↔ (planner_runner = none ∨ checker_runner = none))
    ∧ ((planner_runner = none ∨ checker_runner = none) →
        ∀ (system2 : SystemDesc) (standard2 : String),
          run_pipeline_get_text planner_runner checker_runner system2 standard2
            = Except.error "Agents (Planner/Checker) are not initialized.")
    ∧ (planner_runner ≠ none → checker_runner ≠ none →
        ∃ t, run_pipeline_get_text planner_runner checker_runner system standard
          = Except.ok t) := by
  refine ⟨⟨?_, ?_⟩, ?_, ?_⟩
  · intro ⟨msg, hmsg⟩
    by_contra hboth
    push_neg at hboth
    obtain ⟨prun, hp⟩ := Option.ne_none_iff_exists'.mp hboth.1
    obtain ⟨crun, hc⟩ := Option.ne_none_iff_exists'.mp hboth.2
    rw [hp, hc] at hmsg
    exact Except.noConfusion hmsg
  · intro h
    rcases h with h | h <;> subst h
    · exact ⟨"Agents (Planner/Checker) are not initialized.", rfl⟩
    · cases planner_runner <;>
        exact ⟨"Agents (Planner/Checker) are not initialized.", rfl⟩
  · intro h system2 standard2
    rcases h with h | h <;> subst h
    · rfl
    · cases planner_runner <;> rfl
  · intro hp hc
    obtain ⟨prun, hp'⟩ := Option.ne_none_iff_exists'.mp hp
    obtain ⟨crun, hc'⟩ := Option.ne_none_iff_exists'.mp hc
    rw [hp', hc']
    exact ⟨_, rfl⟩

/-- C5 witness: with the planner runner uninitialized the orchestrator
reports the configuration error. -/
theorem run_pipeline_init_check_witness :
    run_pipeline_get_text none none
        (SystemDesc.mk "s1" "demo" "automotive" "brake system" ["hara"]) "iso26262"
      = Except.error "Agents (Planner/Checker) are not initialized." :=
  (run_pipeline_init_check none none
      (SystemDesc.mk "s1" "demo" "automotive" "brake system" ["hara"]) "iso26262").2.1
    (Or.inl rfl)
    (SystemDesc.mk "s1" "demo" "automotive" "brake system" ["hara"]) "iso26262"

lemma capture_final_last :
    ∀ events : List Event,
      capture_final events = (last_final_text events).getD "" := by
  intro events
  induction events using List.reverseRecOn with
  | nil => rfl
  | append_singleton l e ih =>
      have hstep : capture_final (l ++ [e])
          = if e.final && e.text.isSome
            then e.text.getD (capture_final l) else capture_final l := by
        rw [capture_final, List.foldl_append, List.foldl_cons, List.foldl_nil]
        rfl
      rw [hstep]
      by_cases he : (e.final && e.text.isSome) = true
      · rw [if_pos he]
        have h2 := he
        rw [Bool.and_eq_true] at h2
        obtain ⟨t, ht⟩ := Option.isSome_iff_exists.mp h2.2
        have hfr : finalResponses (l ++ [e]) = finalResponses l ++ [e] := by
          rw [finalResponses, List.filter_append]
          simp [finalResponses, List.filter_cons, he]
        have hrhs : last_final_text (l ++ [e]) = some t := by
          rw [last_final_text, hfr]
          simp [ht]
        rw [hrhs, ht]
        rfl
      · rw [if_neg he]
        have hfr : finalResponses (l ++ [e]) = finalResponses l := by
          rw [finalResponses, List.filter_append]
          simp [finalResponses, List.filter_cons, he]
        rw [last_final_text, hfr, ← last_final_text, ih]

/-- C7: the text a stage captures is exactly the text of the last
final-response event of its stream (a final event carrying content), and is
the empty string when the stream has no final-response event; the
orchestrator's overall return value is the checker stage's captured text,
computed from the checker oracle's stream on the prompt that embeds the
planner stage's captured text. -/
theorem run_pipeline_capture_spec
    (prun crun : String → List Event) (system : SystemDesc) (standard : String) :
    (∀ events : List Event,
      capture_final events = (last_final_text events).getD ""
      ∧ (finalResponses events = [] → capture_final events = ""))
    ∧ run_pipeline_get_text (some prun) (some crun) system standard
        = Except.ok (capture_final (crun (checker_input system.description
            system.domain standard (risk_estimator_tool system.description)
            (capture_final (prun (planner_input system.description system.domain
              standard (risk_estimator_tool system.description))))))) := by
  refine ⟨fun events => ⟨capture_final_last events, fun h => ?_⟩, rfl⟩
  rw [capture_final_last events, last_final_text, h]
  rfl

/-- C7 witness: a stream whose only event is not a final response captures
the empty string, and with oracles returning no events the pipeline returns
`ok ""`. -/
theorem run_pipeline_capture_spec_witness :
    capture_final [Event.mk false (some "ignored")] = ""
    ∧ run_pipeline_get_text (some fun _ => []) (some fun _ => [])
        (SystemDesc.mk "s1" "demo" "automotive" "brake system" ["hara"]) "iso26262"
      = Except.ok "" :=
  ⟨((run_pipeline_capture_spec (fun _ => []) (fun _ => [])
      (SystemDesc.mk "s1" "demo" "automotive" "brake system" ["hara"]) "iso26262").1
      [Event.mk false (some "ignored")]).2 rfl,
   ((run_pipeline_capture_spec (fun _ => []) (fun _ => [])
      (SystemDesc.mk "s1" "demo" "automotive" "brake system" ["hara"]) "iso26262").2).trans rfl⟩

end SafetyCopilot
